import Mathlib

/-!
Verification of the client-side event-channel core of the repository
(`src/frontend/src/services/websocket.ts`, class `WebSocketService`).

The development has four parts:

1. A model of the JSON values handled by the channel, together with a
   serializer and parser modelling the platform primitives
   `JSON.stringify` / `JSON.parse` that the source calls.  Numbers are
   modelled as integers (the frames the channel exchanges carry ids and
   counters), and strings escape the quote and backslash characters;
   this covers exactly the value domain the source puts on the wire.
2. A small-step operational model of `WebSocketService` itself: its
   mutable fields (`ws`, `reconnectCount`, `reconnectTimeoutId`, the
   configuration), the sockets and timers it creates, and the handlers
   `connect` / `disconnect` / `send` / `onopen` / `onclose` / `onerror` /
   `onmessage` / the `setTimeout` callback, each translated line by line
   from the source.  Transport and timer callbacks are environment steps
   of a guarded transition system, reflecting the single-threaded
   event-loop execution of the browser.
3. A model of the subscriber registry.  The source inherits it from the
   external `events` package (`EventEmitter`), whose code is not part of
   the repository, so the registry is modelled from the specification's
   contract (ordered relation, snapshot-then-iterate emission).
4. The claim theorems.
-/

namespace WSChannel

/-! ## Part 1: JSON values and the frame codec -/

mutual
/-- JSON values as exchanged by the channel.  `num` is an integer: the
channel's frames carry ids, counters and strings, and the model does
not cover floating-point literals. -/
inductive Json where
  | null
  | bool (b : Bool)
  | num (n : Int)
  | str (s : String)
  | arr (elems : JsonList)
  | obj (fields : JsonFields)
inductive JsonList where
  | nil
  | cons (head : Json) (tail : JsonList)
inductive JsonFields where
  | nil
  | cons (key : String) (val : Json) (tail : JsonFields)
end

deriving instance DecidableEq for Json
deriving instance Repr for Json

/-- Serialization of one string character, modelling the escaping that
`JSON.stringify` applies to the quote and backslash characters. -/
def escChar (c : Char) : List Char :=
  if c = '"' ∨ c = '\\' then ['\\', c] else [c]

/-- Serialization of a string body (without the surrounding quotes). -/
def escBody (cs : List Char) : List Char :=
  cs.flatMap escChar

/-- Serialization of a JSON string, quotes included. -/
def strChars (s : String) : List Char :=
  '"' :: escBody s.data ++ ['"']

/-- The character for one decimal digit. -/
def digitChar (d : Nat) : Char := Char.ofNat (48 + d)

/-- Decimal digits, least significant first, with explicit fuel so that
the definition reduces definitionally (matching `Nat.digits 10`). -/
def natDigitsAux : Nat → Nat → List Nat
  | 0, _ => []
  | _ + 1, 0 => []
  | fuel + 1, n + 1 => ((n + 1) % 10) :: natDigitsAux fuel ((n + 1) / 10)

/-- Decimal digits of a positive number, least significant first. -/
def natDigits (n : Nat) : List Nat := natDigitsAux n n

/-- Decimal digits of a natural number, most significant first. -/
def natChars (n : Nat) : List Char :=
  if n = 0 then ['0'] else (natDigits n).reverse.map digitChar

/-- Decimal serialization of an integer, as `JSON.stringify` prints it. -/
def intChars : Int → List Char
  | Int.ofNat n => natChars n
  | Int.negSucc m => '-' :: natChars (m + 1)

/-- The keyword `null` as characters. -/
def nullWord : List Char := ['n', 'u', 'l', 'l']

/-- The keyword `true` as characters. -/
def trueWord : List Char := ['t', 'r', 'u', 'e']

/-- The keyword `false` as characters. -/
def falseWord : List Char := ['f', 'a', 'l', 's', 'e']

mutual
/-- Serialization of a JSON value, modelling `JSON.stringify` (which
emits no whitespace). -/
def jsonChars : Json → List Char
  | .null => nullWord
  | .bool true => trueWord
  | .bool false => falseWord
  | .num n => intChars n
  | .str s => strChars s
  | .arr es => '[' :: listChars es ++ [']']
  | .obj fs => '{' :: fieldsChars fs ++ ['}']
def listChars : JsonList → List Char
  | .nil => []
  | .cons v .nil => jsonChars v
  | .cons v (.cons w t) => jsonChars v ++ ',' :: listChars (.cons w t)
def fieldsChars : JsonFields → List Char
  | .nil => []
  | .cons k v .nil => strChars k ++ ':' :: jsonChars v
  | .cons k v (.cons k2 w t) =>
      strChars k ++ ':' :: jsonChars v ++ ',' :: fieldsChars (.cons k2 w t)
end

/-- `JSON.stringify` on the model values. -/
def jsonStringify (v : Json) : String := String.mk (jsonChars v)

/-- Consume an expected literal word (used for `null`, `true`, `false`). -/
def dropWord : List Char → List Char → Option (List Char)
  | [], cs => some cs
  | _ :: _, [] => none
  | w :: ws, c :: cs => if c = w then dropWord ws cs else none

/-- Worker for string-body parsing: the `Bool` records whether the
previous character was an unprocessed backslash. -/
def parseStrAux : Bool → List Char → Option (List Char × List Char)
  | _, [] => none
  | true, c :: rest =>
    if c = '"' ∨ c = '\\' then
      match parseStrAux false rest with
      | none => none
      | some (s, r) => some (c :: s, r)
    else none
  | false, c :: rest =>
    if c = '"' then some ([], rest)
    else if c = '\\' then parseStrAux true rest
    else
      match parseStrAux false rest with
      | none => none
      | some (s, r) => some (c :: s, r)

/-- Parse a string body up to the closing quote, undoing `escChar`. -/
def parseStrChars (cs : List Char) : Option (List Char × List Char) :=
  parseStrAux false cs

/-- Numeric value of a digit character. -/
def digitVal (c : Char) : Nat := c.toNat - 48

/-- Parse a nonempty run of decimal digits. -/
def parseNatCs (cs : List Char) : Option (Nat × List Char) :=
  let ds := cs.takeWhile Char.isDigit
  if ds.isEmpty then none
  else some (ds.foldl (fun a c => 10 * a + digitVal c) 0, cs.dropWhile Char.isDigit)

mutual
/-- Recursive-descent parser for the model values, modelling
`JSON.parse` on whitespace-free frames.  The `fuel` argument only
serves termination; `jsonParse` below supplies enough fuel for any
input. -/
def parseVal : Nat → List Char → Option (Json × List Char)
  | 0, _ => none
  | _ + 1, [] => none
  | fuel + 1, c :: rest =>
    if c = 'n' then (dropWord ['u', 'l', 'l'] rest).map (fun r => (Json.null, r))
    else if c = 't' then (dropWord ['r', 'u', 'e'] rest).map (fun r => (Json.bool true, r))
    else if c = 'f' then (dropWord ['a', 'l', 's', 'e'] rest).map (fun r => (Json.bool false, r))
    else if c = '"' then
      (parseStrChars rest).map (fun p => (Json.str (String.mk p.1), p.2))
    else if c = '[' then
      if rest.head? = some ']' then some (Json.arr .nil, rest.tail)
      else (parseElems fuel rest).map (fun p => (Json.arr p.1, p.2))
    else if c = '{' then
      if rest.head? = some '}' then some (Json.obj .nil, rest.tail)
      else (parseMembers fuel rest).map (fun p => (Json.obj p.1, p.2))
    else if c = '-' then
      (parseNatCs rest).map (fun p => (Json.num (-(p.1 : Int)), p.2))
    else if c.isDigit then
      (parseNatCs (c :: rest)).map (fun p => (Json.num (p.1 : Int), p.2))
    else none
def parseElems : Nat → List Char → Option (JsonList × List Char)
  | 0, _ => none
  | fuel + 1, cs =>
    match parseVal fuel cs with
    | none => none
    | some (v, r) =>
      match r with
      | [] => none
      | c :: r2 =>
        if c = ',' then (parseElems fuel r2).map (fun p => (JsonList.cons v p.1, p.2))
        else if c = ']' then some (JsonList.cons v .nil, r2)
        else none
def parseMembers : Nat → List Char → Option (JsonFields × List Char)
  | 0, _ => none
  | _ + 1, [] => none
  | fuel + 1, c :: cs =>
    if c = '"' then
      match parseStrChars cs with
      | none => none
      | some (k, r) =>
        match r with
        | ':' :: r2 =>
          match parseVal fuel r2 with
          | none => none
          | some (v, r3) =>
            match r3 with
            | [] => none
            | c2 :: r4 =>
              if c2 = ',' then
                (parseMembers fuel r4).map
                  (fun p => (JsonFields.cons (String.mk k) v p.1, p.2))
              else if c2 = '}' then some (JsonFields.cons (String.mk k) v .nil, r4)
              else none
        | _ => none
    else none
end

/-- `JSON.parse` on the model: the whole input must be consumed. -/
def jsonParse (s : String) : Option Json :=
  match parseVal (s.data.length + 1) s.data with
  | some (v, []) => some v
  | _ => none

/-! ### Codec correctness lemmas -/

theorem natDigitsAux_eq (fuel : Nat) : ∀ n, n ≤ fuel → natDigitsAux fuel n = Nat.digits 10 n := by
  induction fuel with
  | zero =>
    intro n hn
    interval_cases n
    simp [natDigitsAux]
  | succ fuel ih =>
    intro n hn
    match n with
    | 0 => simp [natDigitsAux]
    | m + 1 =>
      have hdiv : (m + 1) / 10 ≤ fuel := by
        have := Nat.div_lt_self (Nat.succ_pos m) (by omega : 1 < 10)
        omega
      rw [natDigitsAux, ih _ hdiv, Nat.digits_def' (by omega : 1 < 10) (Nat.succ_pos m)]

theorem natDigits_eq (n : Nat) : natDigits n = Nat.digits 10 n :=
  natDigitsAux_eq n n le_rfl

theorem natDigits_lt (n : Nat) : ∀ d ∈ natDigits n, d < 10 := by
  rw [natDigits_eq]
  intro d hd
  exact Nat.digits_lt_base (by omega) hd

theorem natDigits_ne_nil (n : Nat) (hn : n ≠ 0) : natDigits n ≠ [] := by
  rw [natDigits_eq]
  exact Nat.digits_ne_nil_iff_ne_zero.mpr hn

theorem digitChar_isDigit (d : Nat) (hd : d < 10) : (digitChar d).isDigit = true := by
  interval_cases d <;> decide

theorem digitVal_digitChar (d : Nat) (hd : d < 10) : digitVal (digitChar d) = d := by
  interval_cases d <;> decide

theorem digitChar_ne_rbracket (d : Nat) (hd : d < 10) : digitChar d ≠ ']' := by
  interval_cases d <;> decide

/-- True when the input does not continue with a decimal digit, so that a
number parse cannot consume past its serialized digits. -/
def headNotDigit (cs : List Char) : Bool :=
  match cs with
  | [] => true
  | c :: _ => !c.isDigit

theorem split_digits (l r : List Char) (hl : ∀ c ∈ l, c.isDigit = true)
    (hr : headNotDigit r = true) :
    (l ++ r).takeWhile Char.isDigit = l ∧ (l ++ r).dropWhile Char.isDigit = r := by
  induction l with
  | nil =>
    match r with
    | [] => simp
    | c :: t =>
      simp only [headNotDigit, Bool.not_eq_true'] at hr
      simp [List.takeWhile, List.dropWhile, hr]
  | cons c t ih =>
    have hc : c.isDigit = true := hl c (by simp)
    have ht := ih (fun x hx => hl x (by simp [hx]))
    simp [List.takeWhile, List.dropWhile, hc, ht.1, ht.2]

theorem foldr_ofDigits (L : List Nat) :
    L.foldr (fun d acc => 10 * acc + d) 0 = Nat.ofDigits 10 L := by
  induction L with
  | nil => simp [Nat.ofDigits_nil]
  | cons d t ih =>
    simp only [List.foldr_cons, ih, Nat.ofDigits_cons]
    omega


theorem foldr_digitChars (M : List Nat) (h : ∀ d ∈ M, d < 10) :
    M.foldr (fun d y => 10 * y + digitVal (digitChar d)) 0 =
      M.foldr (fun d y => 10 * y + d) 0 := by
  induction M with
  | nil => rfl
  | cons d t ih =>
    simp only [List.foldr_cons]
    rw [ih (fun x hx => h x (List.mem_cons_of_mem d hx)),
      digitVal_digitChar d (h d (List.mem_cons_self d t))]

theorem natChars_all_digits (n : Nat) : ∀ c ∈ natChars n, c.isDigit = true := by
  intro c hc
  by_cases hn : n = 0
  · subst hn
    simp [natChars] at hc
    subst hc; decide
  · simp [natChars, hn] at hc
    obtain ⟨d, hd, rfl⟩ := hc
    exact digitChar_isDigit d (natDigits_lt n d hd)

theorem natChars_ne_nil (n : Nat) : natChars n ≠ [] := by
  by_cases hn : n = 0
  · subst hn; decide
  · simp only [natChars, if_neg hn]
    intro h
    apply natDigits_ne_nil n hn
    simpa using h

theorem natChars_foldl (n : Nat) :
    (natChars n).foldl (fun a c => 10 * a + digitVal c) 0 = n := by
  by_cases hn : n = 0
  · subst hn; decide
  · simp only [natChars, if_neg hn]
    rw [List.map_reverse, List.foldl_reverse, List.foldr_map]
    rw [foldr_digitChars (natDigits n) (natDigits_lt n), foldr_ofDigits, natDigits_eq,
      Nat.ofDigits_digits]

theorem parseNatCs_natChars (n : Nat) (rest : List Char) (hr : headNotDigit rest = true) :
    parseNatCs (natChars n ++ rest) = some (n, rest) := by
  obtain ⟨h1, h2⟩ := split_digits (natChars n) rest (natChars_all_digits n) hr
  have hne : natChars n ≠ [] := natChars_ne_nil n
  simp only [parseNatCs, h1, h2, List.isEmpty_iff, if_neg hne, natChars_foldl]

theorem parseStrChars_escBody (cs : List Char) : ∀ rest : List Char,
    parseStrChars (escBody cs ++ '"' :: rest) = some (cs, rest) := by
  induction cs with
  | nil => intro rest; rfl
  | cons c t ih =>
    intro rest
    have hesc : escBody (c :: t) = escChar c ++ escBody t := by
      simp [escBody]
    unfold parseStrChars at ih ⊢
    rw [hesc]
    by_cases hc : c = '"' ∨ c = '\\'
    · simp only [escChar, if_pos hc, List.cons_append, List.append_assoc, List.nil_append]
      rw [show parseStrAux false ('\\' :: c :: (escBody t ++ '"' :: rest)) =
            parseStrAux true (c :: (escBody t ++ '"' :: rest)) from rfl]
      rw [parseStrAux]
      simp only [if_pos hc, ih rest]
    · simp only [escChar, if_neg hc, List.cons_append, List.nil_append]
      push_neg at hc
      rw [parseStrAux]
      simp only [if_neg hc.1, if_neg hc.2, ih rest]

theorem stringMk_data (s : String) : String.mk s.data = s := rfl

/-- The first character of a serialized value; it is never `']'`, which
steers the parser's array branches. -/
theorem jsonChars_head (v : Json) :
    ∃ c cs, jsonChars v = c :: cs ∧ c ≠ ']' := by
  match v with
  | .null => exact ⟨'n', _, rfl, by decide⟩
  | .bool true => exact ⟨'t', _, rfl, by decide⟩
  | .bool false => exact ⟨'f', _, rfl, by decide⟩
  | .str s => exact ⟨'"', _, rfl, by decide⟩
  | .arr es => exact ⟨'[', _, rfl, by decide⟩
  | .obj fs => exact ⟨'{', _, rfl, by decide⟩
  | .num (Int.negSucc m) => exact ⟨'-', _, rfl, by decide⟩
  | .num (Int.ofNat n) =>
    show ∃ c cs, natChars n = c :: cs ∧ c ≠ ']'
    by_cases hn : n = 0
    · subst hn; exact ⟨'0', [], rfl, by decide⟩
    · obtain ⟨c, cs, hcs⟩ := List.exists_cons_of_ne_nil (natChars_ne_nil n)
      refine ⟨c, cs, hcs, ?_⟩
      have hc : c.isDigit = true := natChars_all_digits n c (by rw [hcs]; simp)
      intro hcontra
      subst hcontra
      exact absurd hc (by decide)

mutual
/-- Parser fuel sufficient for a value (one unit per bracket level and
per list element). -/
def fuelJ : Json → Nat
  | .null => 1
  | .bool _ => 1
  | .num _ => 1
  | .str _ => 1
  | .arr es => 1 + fuelL es
  | .obj fs => 1 + fuelO fs
def fuelL : JsonList → Nat
  | .nil => 0
  | .cons v t => 1 + fuelJ v + fuelL t
def fuelO : JsonFields → Nat
  | .nil => 0
  | .cons _ v t => 1 + fuelJ v + fuelO t
end

mutual
theorem fuelJ_pos : (v : Json) → 1 ≤ fuelJ v
  | .null => le_rfl
  | .bool _ => le_rfl
  | .num _ => le_rfl
  | .str _ => le_rfl
  | .arr _ => Nat.le_add_right 1 _
  | .obj _ => Nat.le_add_right 1 _
end

mutual
theorem fuelJ_le : (v : Json) → fuelJ v ≤ (jsonChars v).length
  | .null => by simp [fuelJ, jsonChars, nullWord]
  | .bool true => by simp [fuelJ, jsonChars, trueWord]
  | .bool false => by simp [fuelJ, jsonChars, falseWord]
  | .num n => by
    have h : (intChars n).length ≥ 1 := by
      match n with
      | Int.ofNat m =>
        have := natChars_ne_nil m
        simp only [intChars]
        cases hcs : natChars m with
        | nil => exact absurd hcs this
        | cons c cs => simp
      | Int.negSucc m => simp [intChars]
    simpa [fuelJ, jsonChars] using h
  | .str s => by simp [fuelJ, jsonChars, strChars]
  | .arr es => by
    have h := fuelL_le es
    rw [show fuelJ (.arr es) = 1 + fuelL es from rfl,
      show jsonChars (.arr es) = '[' :: listChars es ++ [']'] from rfl]
    simp only [List.length_cons, List.length_append, List.length_nil]
    omega
  | .obj fs => by
    have h := fuelO_le fs
    rw [show fuelJ (.obj fs) = 1 + fuelO fs from rfl,
      show jsonChars (.obj fs) = '{' :: fieldsChars fs ++ ['}'] from rfl]
    simp only [List.length_cons, List.length_append, List.length_nil]
    omega
theorem fuelL_le : (es : JsonList) → fuelL es ≤ (listChars es).length + 1
  | .nil => by simp [fuelL, listChars]
  | .cons v .nil => by
    have h := fuelJ_le v
    rw [show fuelL (.cons v .nil) = 1 + fuelJ v + 0 from rfl,
      show listChars (.cons v .nil) = jsonChars v from rfl]
    omega
  | .cons v (.cons w t) => by
    have h1 := fuelJ_le v
    have h2 := fuelL_le (.cons w t)
    rw [show fuelL (.cons v (.cons w t)) = 1 + fuelJ v + fuelL (.cons w t) from rfl,
      show listChars (.cons v (.cons w t)) = jsonChars v ++ ',' :: listChars (.cons w t)
        from rfl]
    simp only [List.length_append, List.length_cons]
    omega
theorem fuelO_le : (fs : JsonFields) → fuelO fs ≤ (fieldsChars fs).length + 1
  | .nil => by simp [fuelO, fieldsChars]
  | .cons k v .nil => by
    have h := fuelJ_le v
    rw [show fuelO (.cons k v .nil) = 1 + fuelJ v + 0 from rfl,
      show fieldsChars (.cons k v .nil) = strChars k ++ ':' :: jsonChars v from rfl]
    simp only [List.length_append, List.length_cons]
    omega
  | .cons k v (.cons k2 w t) => by
    have h1 := fuelJ_le v
    have h2 := fuelO_le (.cons k2 w t)
    rw [show fuelO (.cons k v (.cons k2 w t)) = 1 + fuelJ v + fuelO (.cons k2 w t) from rfl,
      show fieldsChars (.cons k v (.cons k2 w t)) =
        strChars k ++ ':' :: jsonChars v ++ ',' :: fieldsChars (.cons k2 w t) from rfl]
    simp only [List.length_append, List.length_cons]
    omega
end

theorem isDigit_branches {c : Char} (h : c.isDigit = true) :
    ¬c = 'n' ∧ ¬c = 't' ∧ ¬c = 'f' ∧ ¬c = '"' ∧ ¬c = '[' ∧ ¬c = '{' ∧ ¬c = '-' := by
  refine ⟨?_, ?_, ?_, ?_, ?_, ?_, ?_⟩ <;> (rintro rfl; exact absurd h (by decide))

theorem parseVal_digit (fuel : Nat) (c : Char) (cs : List Char) (h : c.isDigit = true) :
    parseVal (fuel + 1) (c :: cs) =
      (parseNatCs (c :: cs)).map (fun p => (Json.num (p.1 : Int), p.2)) := by
  obtain ⟨h1, h2, h3, h4, h5, h6, h7⟩ := isDigit_branches h
  rw [parseVal]
  simp only [if_neg h1, if_neg h2, if_neg h3, if_neg h4, if_neg h5, if_neg h6, if_neg h7,
    if_pos h]

theorem parse_complete : ∀ fuel : Nat,
    (∀ v rest, fuelJ v ≤ fuel → headNotDigit rest = true →
      parseVal fuel (jsonChars v ++ rest) = some (v, rest)) ∧
    (∀ es rest, es ≠ JsonList.nil → fuelL es ≤ fuel →
      parseElems fuel (listChars es ++ ']' :: rest) = some (es, rest)) ∧
    (∀ fs rest, fs ≠ JsonFields.nil → fuelO fs ≤ fuel →
      parseMembers fuel (fieldsChars fs ++ '}' :: rest) = some (fs, rest)) := by
  intro fuel
  induction fuel with
  | zero =>
    refine ⟨?_, ?_, ?_⟩
    · intro v rest hf _
      exact absurd hf (by have := fuelJ_pos v; omega)
    · intro es rest hne hf
      match es with
      | .nil => exact absurd rfl hne
      | .cons v t =>
        rw [show fuelL (.cons v t) = 1 + fuelJ v + fuelL t from rfl] at hf
        omega
    · intro fs rest hne hf
      match fs with
      | .nil => exact absurd rfl hne
      | .cons k v t =>
        rw [show fuelO (.cons k v t) = 1 + fuelJ v + fuelO t from rfl] at hf
        omega
  | succ fuel ih =>
    obtain ⟨ihV, ihE, ihM⟩ := ih
    refine ⟨?_, ?_, ?_⟩
    · intro v rest hf hr
      match v with
      | .null => rfl
      | .bool true => rfl
      | .bool false => rfl
      | .num (Int.ofNat m) =>
        have hne := natChars_ne_nil m
        cases hcs : natChars m with
        | nil => exact absurd hcs hne
        | cons c cs =>
          have hcd : c.isDigit = true := natChars_all_digits m c (by rw [hcs]; simp)
          rw [show jsonChars (.num (Int.ofNat m)) = natChars m from rfl, hcs,
            List.cons_append, parseVal_digit fuel c (cs ++ rest) hcd, ← List.cons_append,
            ← hcs, parseNatCs_natChars m rest hr]
          rfl
      | .num (Int.negSucc m) =>
        rw [show jsonChars (.num (Int.negSucc m)) = '-' :: natChars (m + 1) from rfl,
          List.cons_append]
        rw [show parseVal (fuel + 1) ('-' :: (natChars (m + 1) ++ rest)) =
          (parseNatCs (natChars (m + 1) ++ rest)).map
            (fun p => (Json.num (-(p.1 : Int)), p.2)) from rfl]
        rw [parseNatCs_natChars (m + 1) rest hr]
        simp [Int.negSucc_eq]
      | .str s =>
        rw [show jsonChars (.str s) ++ rest = '"' :: (escBody s.data ++ '"' :: rest) from by
          simp [jsonChars, strChars]]
        rw [show parseVal (fuel + 1) ('"' :: (escBody s.data ++ '"' :: rest)) =
          (parseStrChars (escBody s.data ++ '"' :: rest)).map
            (fun p => (Json.str (String.mk p.1), p.2)) from rfl]
        rw [parseStrChars_escBody s.data rest]
        simp [stringMk_data]
      | .arr .nil => rfl
      | .arr (.cons v t) =>
        rw [show jsonChars (.arr (.cons v t)) ++ rest =
          '[' :: (listChars (.cons v t) ++ ']' :: rest) from by
            simp [jsonChars]]
        obtain ⟨c, cs, hc, hcne⟩ := jsonChars_head v
        have hhead : (listChars (.cons v t) ++ ']' :: rest).head? = some c := by
          match t with
          | .nil => rw [show listChars (.cons v .nil) = jsonChars v from rfl, hc]; rfl
          | .cons w t2 =>
            rw [show listChars (.cons v (.cons w t2)) =
              jsonChars v ++ ',' :: listChars (.cons w t2) from rfl, hc]
            rfl
        rw [show parseVal (fuel + 1) ('[' :: (listChars (.cons v t) ++ ']' :: rest)) =
          (if (listChars (.cons v t) ++ ']' :: rest).head? = some ']' then
            some (Json.arr .nil, (listChars (.cons v t) ++ ']' :: rest).tail)
          else (parseElems fuel (listChars (.cons v t) ++ ']' :: rest)).map
            (fun p => (Json.arr p.1, p.2))) from rfl]
        rw [hhead, if_neg (by simp [hcne])]
        have hfl : fuelL (.cons v t) ≤ fuel := by
          rw [show fuelJ (.arr (.cons v t)) = 1 + fuelL (.cons v t) from rfl] at hf
          omega
        rw [ihE (.cons v t) rest (fun h => JsonList.noConfusion h) hfl]
        rfl
      | .obj .nil => rfl
      | .obj (.cons k v t) =>
        rw [show jsonChars (.obj (.cons k v t)) ++ rest =
          '{' :: (fieldsChars (.cons k v t) ++ '}' :: rest) from by
            simp [jsonChars]]
        have hhead : (fieldsChars (.cons k v t) ++ '}' :: rest).head? = some '"' := by
          match t with
          | .nil =>
            rw [show fieldsChars (.cons k v .nil) = strChars k ++ ':' :: jsonChars v from rfl]
            rfl
          | .cons k2 w t2 =>
            rw [show fieldsChars (.cons k v (.cons k2 w t2)) =
              strChars k ++ ':' :: jsonChars v ++ ',' :: fieldsChars (.cons k2 w t2) from rfl]
            rfl
        rw [show parseVal (fuel + 1) ('{' :: (fieldsChars (.cons k v t) ++ '}' :: rest)) =
          (if (fieldsChars (.cons k v t) ++ '}' :: rest).head? = some '}' then
            some (Json.obj .nil, (fieldsChars (.cons k v t) ++ '}' :: rest).tail)
          else (parseMembers fuel (fieldsChars (.cons k v t) ++ '}' :: rest)).map
            (fun p => (Json.obj p.1, p.2))) from rfl]
        rw [hhead, if_neg (by decide)]
        have hfo : fuelO (.cons k v t) ≤ fuel := by
          rw [show fuelJ (.obj (.cons k v t)) = 1 + fuelO (.cons k v t) from rfl] at hf
          omega
        rw [ihM (.cons k v t) rest (fun h => JsonFields.noConfusion h) hfo]
        rfl
    · intro es rest hne hfl
      match es with
      | .nil => exact absurd rfl hne
      | .cons v t =>
        have hfv : fuelJ v ≤ fuel := by
          rw [show fuelL (.cons v t) = 1 + fuelJ v + fuelL t from rfl] at hfl
          omega
        match t with
        | .nil =>
          rw [show listChars (.cons v .nil) = jsonChars v from rfl, parseElems,
            ihV v (']' :: rest) hfv rfl]
          rfl
        | .cons w t2 =>
          have hft : fuelL (.cons w t2) ≤ fuel := by
            rw [show fuelL (.cons v (.cons w t2)) =
              1 + fuelJ v + fuelL (.cons w t2) from rfl] at hfl
            omega
          rw [show listChars (.cons v (.cons w t2)) ++ ']' :: rest =
            jsonChars v ++ ',' :: (listChars (.cons w t2) ++ ']' :: rest) from by
              rw [show listChars (.cons v (.cons w t2)) =
                jsonChars v ++ ',' :: listChars (.cons w t2) from rfl]
              simp]
          rw [parseElems, ihV v (',' :: (listChars (.cons w t2) ++ ']' :: rest)) hfv rfl]
          show (parseElems fuel (listChars (.cons w t2) ++ ']' :: rest)).map
            (fun p => (JsonList.cons v p.1, p.2)) = some (JsonList.cons v (.cons w t2), rest)
          rw [ihE (.cons w t2) rest (fun h => JsonList.noConfusion h) hft]
          rfl
    · intro fs rest hne hfo
      match fs with
      | .nil => exact absurd rfl hne
      | .cons k v t =>
        have hfv : fuelJ v ≤ fuel := by
          rw [show fuelO (.cons k v t) = 1 + fuelJ v + fuelO t from rfl] at hfo
          omega
        match t with
        | .nil =>
          rw [show fieldsChars (.cons k v .nil) ++ '}' :: rest =
            '"' :: (escBody k.data ++ '"' :: (':' :: (jsonChars v ++ '}' :: rest))) from by
              rw [show fieldsChars (.cons k v .nil) =
                strChars k ++ ':' :: jsonChars v from rfl]
              simp [strChars]]
          rw [parseMembers]
          simp only [if_pos rfl]
          rw [parseStrChars_escBody k.data (':' :: (jsonChars v ++ '}' :: rest))]
          show (match parseVal fuel (jsonChars v ++ '}' :: rest) with
            | none => none
            | some (v2, r3) =>
              match r3 with
              | [] => none
              | c2 :: r4 =>
                if c2 = ',' then
                  (parseMembers fuel r4).map
                    (fun p => (JsonFields.cons (String.mk k.data) v2 p.1, p.2))
                else if c2 = '}' then some (JsonFields.cons (String.mk k.data) v2 .nil, r4)
                else none) = some (JsonFields.cons k v .nil, rest)
          rw [ihV v ('}' :: rest) hfv rfl]
          simp [stringMk_data]
        | .cons k2 w t2 =>
          have hft : fuelO (.cons k2 w t2) ≤ fuel := by
            rw [show fuelO (.cons k v (.cons k2 w t2)) =
              1 + fuelJ v + fuelO (.cons k2 w t2) from rfl] at hfo
            omega
          rw [show fieldsChars (.cons k v (.cons k2 w t2)) ++ '}' :: rest =
            '"' :: (escBody k.data ++ '"' :: (':' :: (jsonChars v ++
              ',' :: (fieldsChars (.cons k2 w t2) ++ '}' :: rest)))) from by
              rw [show fieldsChars (.cons k v (.cons k2 w t2)) =
                strChars k ++ ':' :: jsonChars v ++
                  ',' :: fieldsChars (.cons k2 w t2) from rfl]
              simp [strChars]]
          rw [parseMembers]
          simp only [if_pos rfl]
          rw [parseStrChars_escBody k.data
            (':' :: (jsonChars v ++ ',' :: (fieldsChars (.cons k2 w t2) ++ '}' :: rest)))]
          show (match parseVal fuel (jsonChars v ++
              ',' :: (fieldsChars (.cons k2 w t2) ++ '}' :: rest)) with
            | none => none
            | some (v2, r3) =>
              match r3 with
              | [] => none
              | c2 :: r4 =>
                if c2 = ',' then
                  (parseMembers fuel r4).map
                    (fun p => (JsonFields.cons (String.mk k.data) v2 p.1, p.2))
                else if c2 = '}' then some (JsonFields.cons (String.mk k.data) v2 .nil, r4)
                else none) = some (JsonFields.cons k v (.cons k2 w t2), rest)
          rw [ihV v (',' :: (fieldsChars (.cons k2 w t2) ++ '}' :: rest)) hfv rfl]
          show (parseMembers fuel (fieldsChars (.cons k2 w t2) ++ '}' :: rest)).map
            (fun p => (JsonFields.cons (String.mk k.data) v p.1, p.2)) =
              some (JsonFields.cons k v (.cons k2 w t2), rest)
          rw [ihM (.cons k2 w t2) rest (fun h => JsonFields.noConfusion h) hft]
          simp [stringMk_data]

/-- Round trip of the modelled platform codec: parsing serialized
output returns the original value. -/
theorem jsonParse_stringify (v : Json) : jsonParse (jsonStringify v) = some v := by
  have h := (parse_complete ((jsonChars v).length + 1)).1 v []
    (Nat.le_succ_of_le (fuelJ_le v)) rfl
  rw [List.append_nil] at h
  show (match parseVal ((jsonChars v).length + 1) (jsonChars v) with
    | some (w, []) => some w
    | _ => none) = some v
  rw [h]

/-! ### The wire envelope and property access -/

/-- Lookup of an object field by key, as JavaScript property access on
an object built by `JSON.parse` behaves: with repeated keys the last
assignment wins. -/
def fieldsGet (k : String) : JsonFields → Option Json
  | .nil => none
  | .cons k2 v t =>
    match fieldsGet k t with
    | some r => some r
    | none => if k2 = k then some v else none

/-- JavaScript property access `j[k]`: `none` models `undefined`
(non-objects have no own properties of interest here). -/
def jsGet (j : Json) (k : String) : Option Json :=
  match j with
  | .obj fs => fieldsGet k fs
  | _ => none

/-- The wire envelope `{type, payload}` of the channel
(`WebSocketMessage` in the source). -/
structure Envelope where
  type : String
  payload : Json
deriving DecidableEq, Repr

/-- The JSON object the source builds in `send`:
`{ type, payload }` with exactly those two fields in that order. -/
def envelopeJson (t : String) (p : Json) : Json :=
  Json.obj (JsonFields.cons "type" (Json.str t)
    (JsonFields.cons "payload" p JsonFields.nil))

/-- `JSON.stringify({type, payload})` as called at
`websocket.ts:124`. -/
def encodeEnvelope (e : Envelope) : String :=
  jsonStringify (envelopeJson e.type e.payload)

/-- Reading an Envelope back from a text frame: parse the frame and
extract the two fields (the codec view of `JSON.parse` at
`websocket.ts:72` followed by the field accesses of
`handleMessage`). -/
def decodeEnvelope (s : String) : Option Envelope :=
  match jsonParse s with
  | none => none
  | some j =>
    match jsGet j "type", jsGet j "payload" with
    | some (Json.str t), some p => some ⟨t, p⟩
    | _, _ => none

/-! ## Part 2: the `WebSocketService` state machine

Translation of `src/frontend/src/services/websocket.ts`.  The mutable
instance fields become a record; the sockets and timers the service
creates are kept in append-only tables indexed by creation order, so
that sockets abandoned by the service (its `ws` field overwritten or
nulled) are still modelled — their callbacks remain installed and the
browser still delivers their events.  Environment steps (handshake
completion, close/error/message delivery, timer expiry) run the
handlers installed by `setupEventListeners`, one at a time, as the
single-threaded event loop does. -/

/-- `WebSocket.readyState` values. -/
inductive ReadyState where
  | connecting
  | opened
  | closing
  | closed
deriving DecidableEq, Repr

/-- One physical `WebSocket` created by `connect`
(`setupEventListeners` is always called right after creation, so the
service's callbacks are installed on every socket). -/
structure Sock where
  addr : String
  readyState : ReadyState
  listenersInstalled : Bool
deriving DecidableEq, Repr

/-- One `setTimeout` timer created by `attemptReconnect`; `delay` is
the millisecond argument passed to `setTimeout`. -/
structure TimerRec where
  pending : Bool
  delay : Nat
deriving DecidableEq, Repr

/-- The distinct `error` events the service emits. -/
inductive ErrKind where
  /-- the `catch` in `connect` (socket construction threw) -/
  | openFailure
  /-- `onerror` forwarding a transport error -/
  | transportError
  /-- `new Error('Failed to parse WebSocket message')` -/
  | parseFailure
  /-- `new Error('WebSocket is not connected')` -/
  | notConnected
  /-- `new Error('Maximum reconnection attempts reached')` -/
  | maxReconnect
deriving DecidableEq, Repr

/-- Events emitted through the `EventEmitter` base.  A payload of
`none` models JavaScript `undefined` (an envelope without a `payload`
field). -/
inductive Event where
  | connected
  | disconnected
  | error (k : ErrKind)
  | prUpdate (payload : Option Json)
  | newSuggestion (payload : Option Json)
  | newComment (payload : Option Json)
  | suggestionStatusChange (payload : Option Json)
  | message (envelope : Json)
deriving DecidableEq, Repr

/-- The mutable state of the `WebSocketService` instance plus the
sockets and timers it has created and the frames it has written. -/
structure WS where
  url : String
  reconnectAttempts : Nat
  reconnectInterval : Nat
  reconnectCount : Nat
  ws : Option Nat
  reconnectTimeoutId : Option Nat
  sockets : List Sock
  timers : List TimerRec
  sent : List String
deriving DecidableEq, Repr

/-- JavaScript `x || d` on an optional numeric option: `undefined` and
`0` are both falsy, so both select the default. -/
def jsOr (x : Option Nat) (d : Nat) : Nat :=
  match x with
  | none => d
  | some v => if v = 0 then d else v

/-- The private constructor (lines 25-30): defaults applied with `||`. -/
def mkService (url : String) (reconnectAttempts reconnectInterval : Option Nat) : WS :=
  { url := url
    reconnectAttempts := jsOr reconnectAttempts 5
    reconnectInterval := jsOr reconnectInterval 3000
    reconnectCount := 0
    ws := none
    reconnectTimeoutId := none
    sockets := []
    timers := []
    sent := [] }

/-- The module-level singleton (lines 163-165): only `url` is passed. -/
def initWS (url : String) : WS := mkService url none none

/-- `this.ws?.readyState` for any socket index. -/
def sockStateOf (s : WS) (i : Nat) : Option ReadyState :=
  (s.sockets[i]?).map Sock.readyState

/-- `this.ws?.readyState` for the current socket reference. -/
def currentReadyState (s : WS) : Option ReadyState :=
  match s.ws with
  | none => none
  | some i => sockStateOf s i

/-- `this.ws?.readyState === WebSocket.OPEN`. -/
def isOpenB (s : WS) : Bool :=
  match currentReadyState s with
  | some .opened => true
  | _ => false

/-- Update one socket's ready state in the table. -/
def setSockState (sockets : List Sock) (i : Nat) (f : ReadyState → ReadyState) : List Sock :=
  match sockets[i]? with
  | some so => sockets.set i { so with readyState := f so.readyState }
  | none => sockets

/-- `WebSocket.close()`: a connecting or open socket moves to closing;
the close event is delivered later by the environment. -/
def closeTransition : ReadyState → ReadyState
  | .connecting => .closing
  | .opened => .closing
  | .closing => .closing
  | .closed => .closed

/-- `clearTimeout` on a stored timer handle. -/
def cancelTimer (timers : List TimerRec) (t : Nat) : List TimerRec :=
  match timers[t]? with
  | some r => timers.set t { r with pending := false }
  | none => timers

/-- `attemptReconnect` (lines 99-108): below the budget, arm one new
timer for `reconnectInterval` ms and store its handle (the previous
handle is overwritten, not cancelled); at or above the budget, emit
the exhaustion error and schedule nothing.  The counter is only
incremented later, inside the timer callback. -/
def attemptReconnect (s : WS) : WS × List Event :=
  if s.reconnectCount < s.reconnectAttempts then
    ({ s with reconnectTimeoutId := some s.timers.length,
              timers := s.timers ++ [{ pending := true, delay := s.reconnectInterval }] }, [])
  else (s, [Event.error ErrKind.maxReconnect])

/-- `connect` (lines 39-51).  `openThrows` is the environment's choice
of whether `new WebSocket(url)` throws synchronously. -/
def connect (openThrows : Bool) (s : WS) : WS × List Event :=
  if isOpenB s then (s, [])
  else if openThrows then
    let r := attemptReconnect s
    (r.1, Event.error ErrKind.openFailure :: r.2)
  else
    let newSock : Sock := { addr := s.url, readyState := .connecting, listenersInstalled := true }
    ({ s with ws := some s.sockets.length, sockets := s.sockets ++ [newSock] }, [])

/-- `disconnect` (lines 110-119): clear the stored timer (the handle
field itself is not reset), then close and drop the current socket. -/
def disconnect (s : WS) : WS × List Event :=
  let s1 :=
    match s.reconnectTimeoutId with
    | some t => { s with timers := cancelTimer s.timers t }
    | none => s
  match s1.ws with
  | some i =>
    ({ s1 with ws := none, sockets := setSockState s1.sockets i closeTransition }, [])
  | none => (s1, [])

/-- `send` (lines 121-128). -/
def send (t : String) (p : Json) (s : WS) : WS × List Event :=
  if isOpenB s then
    ({ s with sent := s.sent ++ [jsonStringify (envelopeJson t p)] }, [])
  else (s, [Event.error ErrKind.notConnected])

/-- `message.type` under JavaScript `switch` strict equality: only a
string-valued `type` field can match a case label. -/
def typeOf (j : Json) : Option String :=
  match jsGet j "type" with
  | some (Json.str s) => some s
  | _ => none

/-- `handleMessage` (lines 80-97): the fixed dispatch table, with the
`default` branch republishing the whole envelope as `message`. -/
def handleMessage (message : Json) : List Event :=
  if typeOf message = some "pr_update" then [Event.prUpdate (jsGet message "payload")]
  else if typeOf message = some "new_suggestion" then
    [Event.newSuggestion (jsGet message "payload")]
  else if typeOf message = some "new_comment" then [Event.newComment (jsGet message "payload")]
  else if typeOf message = some "suggestion_status_change" then
    [Event.suggestionStatusChange (jsGet message "payload")]
  else [Event.message message]

/-- The `onmessage` handler (lines 70-77): parse inside `try`; a parse
failure — or the `TypeError` thrown by `message.type` when the frame
decodes to `null` — is caught and surfaced as one error event. -/
def onMessageText (text : String) : List Event :=
  match jsonParse text with
  | none => [Event.error ErrKind.parseFailure]
  | some Json.null => [Event.error ErrKind.parseFailure]
  | some j => handleMessage j

/-- The `onopen` handler (lines 56-59): emit `connected`, reset the
counter; the pending retry timer (if any) is not touched. -/
def sockOpenStep (i : Nat) (s : WS) : WS × List Event :=
  ({ s with sockets := setSockState s.sockets i (fun _ => .opened), reconnectCount := 0 },
    [Event.connected])

/-- The `onclose` handler (lines 61-64): emit `disconnected`, then
`attemptReconnect` — it runs for every socket the service created,
including one the service just closed from `disconnect`. -/
def sockCloseStep (i : Nat) (s : WS) : WS × List Event :=
  let s1 := { s with sockets := setSockState s.sockets i (fun _ => .closed) }
  let r := attemptReconnect s1
  (r.1, Event.disconnected :: r.2)

/-- The `onerror` handler (lines 66-68). -/
def sockErrStep (s : WS) : WS × List Event :=
  (s, [Event.error ErrKind.transportError])

/-- The `onmessage` handler as a state step: it never changes the
service state. -/
def sockMsgStep (text : String) (s : WS) : WS × List Event :=
  (s, onMessageText text)

/-- The `setTimeout` callback (lines 101-104): the timer has elapsed,
then `reconnectCount++` and `connect()`. -/
def timerFireStep (t : Nat) (openThrows : Bool) (s : WS) : WS × List Event :=
  connect openThrows
    { s with timers := cancelTimer s.timers t, reconnectCount := s.reconnectCount + 1 }

/-- The actions of the event loop: public API calls and environment
(transport and timer) callbacks. -/
inductive Act where
  | connect (openThrows : Bool)
  | disconnect
  | send (t : String) (p : Json)
  | sockOpen (i : Nat)
  | sockClose (i : Nat)
  | sockErr (i : Nat)
  | sockMsg (i : Nat) (text : String)
  | timerFire (t : Nat) (openThrows : Bool)

/-- Guard: which environment events the browser can actually deliver
in a state (a handshake only completes on a connecting socket, close
fires once, messages arrive only on an open socket, a timer fires only
while pending). -/
def stepOk : Act → WS → Bool
  | .connect _, _ => true
  | .disconnect, _ => true
  | .send _ _, _ => true
  | .sockOpen i, s =>
    match sockStateOf s i with
    | some .connecting => true
    | _ => false
  | .sockClose i, s =>
    match sockStateOf s i with
    | some .closed => false
    | some _ => true
    | none => false
  | .sockErr i, s =>
    match sockStateOf s i with
    | some _ => true
    | none => false
  | .sockMsg i _, s =>
    match sockStateOf s i with
    | some .opened => true
    | _ => false
  | .timerFire t _, s =>
    match s.timers[t]? with
    | some r => r.pending
    | none => false

/-- One event-loop step. -/
def stepFn : Act → WS → WS × List Event
  | .connect f, s => connect f s
  | .disconnect, s => disconnect s
  | .send t p, s => send t p s
  | .sockOpen i, s => sockOpenStep i s
  | .sockClose i, s => sockCloseStep i s
  | .sockErr _, s => sockErrStep s
  | .sockMsg _ text, s => sockMsgStep text s
  | .timerFire t f, s => timerFireStep t f s

/-- Run a sequence of steps, collecting all emitted events. -/
def run : List Act → WS → WS × List Event
  | [], s => (s, [])
  | a :: rest, s =>
    let r := stepFn a s
    let r2 := run rest r.1
    (r2.1, r.2 ++ r2.2)

/-- All steps of a sequence are deliverable in order. -/
def allOk : List Act → WS → Bool
  | [], _ => true
  | a :: rest, s => stepOk a s && allOk rest (stepFn a s).1

/-- Number of pending retry timers. -/
def pendingTimerCount (s : WS) : Nat :=
  (s.timers.filter TimerRec.pending).length

/-- Whether a socket is live (not fully closed). -/
def sockLive (so : Sock) : Bool :=
  match so.readyState with
  | .closed => false
  | _ => true

/-- Number of live sockets. -/
def liveSocketCount (s : WS) : Nat :=
  (s.sockets.filter sockLive).length

/-! ## Part 3: the subscriber registry

Modelled from the spec: the source dispatches through `EventEmitter`
from the external `events` package (`websocket.ts:3`), whose code is
not part of this repository; what follows models the specification's
contract for the Subscriber Registry — a relation `(event name,
handler)` with insertion order preserved for delivery order, add and
remove not disturbing an in-flight emission, and emission iterating
over a snapshot of the handler list taken when the emission starts.
One event name is modelled; handlers are identified by numbers, and a
handler's behavior during an emission is a list of add/remove
mutations it performs on the registry while running. -/

/-- A mutation a running handler may perform on the registry. -/
inductive RegOp where
  | add (h : Nat)
  | remove (h : Nat)

/-- `on(event, handler)`: register at the end (a relation holds a pair
at most once). -/
def onReg (h : Nat) (r : List Nat) : List Nat :=
  if h ∈ r then r else r ++ [h]

/-- `off(event, handler)`: remove the registration. -/
def offReg (h : Nat) (r : List Nat) : List Nat :=
  r.erase h

/-- Apply one mutation. -/
def applyOp : RegOp → List Nat → List Nat
  | .add h, r => onReg h r
  | .remove h, r => offReg h r

/-- Apply a handler's mutations in order. -/
def applyOps (ops : List RegOp) (r : List Nat) : List Nat :=
  ops.foldl (fun acc op => applyOp op acc) r

/-- The emission loop: iterate over the snapshot while the live
registry mutates underneath; returns the final registry and the
handlers invoked, in invocation order. -/
def emitLoop (hb : Nat → List RegOp) : List Nat → List Nat → List Nat × List Nat
  | [], r => (r, [])
  | h :: snap, r =>
    let r2 := applyOps (hb h) r
    let res := emitLoop hb snap r2
    (res.1, h :: res.2)

/-- `emit(event)`: snapshot the current handler list, then iterate. -/
def emitReg (hb : Nat → List RegOp) (r : List Nat) : List Nat × List Nat :=
  emitLoop hb r r

theorem emitLoop_invoked (hb : Nat → List RegOp) :
    ∀ snap r, (emitLoop hb snap r).2 = snap := by
  intro snap
  induction snap with
  | nil => intro r; rfl
  | cons h t ih => intro r; simp [emitLoop, ih]

/-- What an emission invokes is exactly the snapshot, whatever the
handlers do to the registry meanwhile. -/
theorem emitReg_invoked (hb : Nat → List RegOp) (r : List Nat) :
    (emitReg hb r).2 = r :=
  emitLoop_invoked hb r r

theorem onReg_nodup (h : Nat) (r : List Nat) (hr : r.Nodup) : (onReg h r).Nodup := by
  by_cases hm : h ∈ r
  · simpa [onReg, hm] using hr
  · simp only [onReg, if_neg hm]
    exact List.Nodup.append hr (List.nodup_singleton h)
      (by simpa [List.disjoint_singleton] using hm)

theorem offReg_nodup (h : Nat) (r : List Nat) (hr : r.Nodup) : (offReg h r).Nodup :=
  hr.erase h

theorem applyOp_nodup (op : RegOp) (r : List Nat) (hr : r.Nodup) : (applyOp op r).Nodup := by
  match op with
  | .add h => exact onReg_nodup h r hr
  | .remove h => exact offReg_nodup h r hr

theorem applyOps_nodup (ops : List RegOp) : ∀ r : List Nat, r.Nodup → (applyOps ops r).Nodup := by
  induction ops with
  | nil => intro r hr; exact hr
  | cons op t ih =>
    intro r hr
    exact ih (applyOp op r) (applyOp_nodup op r hr)

/-- Registries built by `on`/`off` from the empty registry have no
duplicate registrations. -/
theorem applyOps_nil_nodup (ops : List RegOp) : (applyOps ops []).Nodup :=
  applyOps_nodup ops [] List.nodup_nil

/-! ## Part 4: the claims -/

/-- C1: the claim says an explicit `disconnect()` never causes an
automatic reconnection to be scheduled as a result of the close it
performed.  The code violates this: `disconnect` clears the pending
timer and closes the socket, but leaves the `onclose` handler
installed, so when the browser delivers the close event for the socket
that `disconnect` itself closed, `attemptReconnect` runs and arms a
retry timer, which later invokes `connect()` and creates a second
socket.  This theorem evaluates the model on that trace: connect,
handshake completes, `disconnect()` (zero pending timers at return),
then the close event of the closed socket arrives (one pending retry
timer), then the timer fires (a second socket is created). -/
theorem c1_disconnect_close_schedules_retry :
    allOk [Act.connect false, Act.sockOpen 0, Act.disconnect, Act.sockClose 0,
      Act.timerFire 0 false] (initWS "ws://localhost:8000/ws") = true ∧
    pendingTimerCount (run [Act.connect false, Act.sockOpen 0, Act.disconnect]
      (initWS "ws://localhost:8000/ws")).1 = 0 ∧
    (run [Act.connect false, Act.sockOpen 0, Act.disconnect]
      (initWS "ws://localhost:8000/ws")).1.ws = none ∧
    pendingTimerCount (run [Act.connect false, Act.sockOpen 0, Act.disconnect,
      Act.sockClose 0] (initWS "ws://localhost:8000/ws")).1 = 1 ∧
    (run [Act.connect false, Act.sockOpen 0, Act.disconnect, Act.sockClose 0,
      Act.timerFire 0 false] (initWS "ws://localhost:8000/ws")).1.sockets.length = 2 := by
  decide

/-- C2 counterexample: the claim says `attemptCount` is incremented at
schedule time, so that after the first failed open `attemptCount == 1`
while the timer is pending.  In the code the increment happens inside
the `setTimeout` callback, so after the first failed open exactly one
timer is pending while `reconnectCount` is still `0`, not `1`. -/
theorem c2_schedule_time_counterexample :
    allOk [Act.connect true] (initWS "ws://localhost:8000/ws") = true ∧
    pendingTimerCount (run [Act.connect true] (initWS "ws://localhost:8000/ws")).1 = 1 ∧
    (run [Act.connect true] (initWS "ws://localhost:8000/ws")).1.reconnectCount = 0 ∧
    ¬((run [Act.connect true] (initWS "ws://localhost:8000/ws")).1.reconnectCount = 1) := by
  decide

/-- C2 amended: the reconnection decision is a function of
`(reconnectCount, reconnectAttempts)`.  Below the budget,
`attemptReconnect` arms exactly one new timer for the fixed
`reconnectInterval`, stores its handle, emits nothing, and leaves the
counter unchanged; the counter is incremented when the delay elapses,
inside the timer callback, immediately before `connect()` is invoked.
At or above the budget, exactly one exhaustion error is emitted, the
state is unchanged, and nothing further is scheduled until an explicit
`connect()`. -/
theorem c2_reconnect_policy (s : WS) :
    (s.reconnectCount < s.reconnectAttempts →
      (attemptReconnect s).2 = [] ∧
      (attemptReconnect s).1.reconnectCount = s.reconnectCount ∧
      (attemptReconnect s).1.reconnectTimeoutId = some s.timers.length ∧
      (attemptReconnect s).1.timers =
        s.timers ++ [{ pending := true, delay := s.reconnectInterval }] ∧
      pendingTimerCount (attemptReconnect s).1 = pendingTimerCount s + 1 ∧
      (∀ f, timerFireStep s.timers.length f (attemptReconnect s).1 =
        connect f { (attemptReconnect s).1 with
          timers := cancelTimer (attemptReconnect s).1.timers s.timers.length,
          reconnectCount := s.reconnectCount + 1 })) ∧
    (s.reconnectAttempts ≤ s.reconnectCount →
      attemptReconnect s = (s, [Event.error ErrKind.maxReconnect])) := by
  constructor
  · intro h
    have hlt : s.reconnectCount < s.reconnectAttempts := h
    refine ⟨?_, ?_, ?_, ?_, ?_, ?_⟩
    · simp [attemptReconnect, hlt]
    · simp [attemptReconnect, hlt]
    · simp [attemptReconnect, hlt]
    · simp [attemptReconnect, hlt]
    · simp only [attemptReconnect, if_pos hlt, pendingTimerCount, List.filter_append]
      simp [TimerRec.pending]
    · intro f
      simp only [attemptReconnect, if_pos hlt, timerFireStep]
  · intro h
    simp [attemptReconnect, Nat.not_lt_of_le h]

/-- Witness for `c2_reconnect_policy`: the fresh service (counter `0`,
budget `5`) takes the scheduling branch; with the counter at the
budget, the exhaustion branch fires. -/
theorem c2_reconnect_policy_witness :
    (attemptReconnect (initWS "ws://x")).2 = [] ∧
    (attemptReconnect (initWS "ws://x")).1.reconnectCount = 0 ∧
    attemptReconnect { initWS "ws://x" with reconnectCount := 5 } =
      ({ initWS "ws://x" with reconnectCount := 5 }, [Event.error ErrKind.maxReconnect]) := by
  have h1 := (c2_reconnect_policy (initWS "ws://x")).1 (by decide)
  have h2 := (c2_reconnect_policy { initWS "ws://x" with reconnectCount := 5 }).2 (by decide)
  exact ⟨h1.1, h1.2.1, h2⟩

/-- C3: the claim says every reachable state has at most one live
socket and at most one pending timer, and that a successful open
cancels any outstanding retry timer.  The code violates both: the
`onopen` handler resets `reconnectCount` but never cancels the timer,
so after an unplanned close arms a retry and an explicit `connect()`
succeeds, the channel holds an open socket together with a pending
retry timer; and `connect()` called while a socket is still connecting
creates a second socket without closing the first, so two live sockets
coexist.  This theorem evaluates the model on both traces. -/
theorem c3_invariant_violated :
    allOk [Act.connect false, Act.sockClose 0, Act.connect false, Act.sockOpen 1]
      (initWS "ws://localhost:8000/ws") = true ∧
    isOpenB (run [Act.connect false, Act.sockClose 0, Act.connect false, Act.sockOpen 1]
      (initWS "ws://localhost:8000/ws")).1 = true ∧
    pendingTimerCount (run [Act.connect false, Act.sockClose 0, Act.connect false,
      Act.sockOpen 1] (initWS "ws://localhost:8000/ws")).1 = 1 ∧
    (run [Act.connect false, Act.sockClose 0, Act.connect false, Act.sockOpen 1]
      (initWS "ws://localhost:8000/ws")).1.reconnectCount = 0 ∧
    allOk [Act.connect false, Act.connect false] (initWS "ws://localhost:8000/ws") = true ∧
    liveSocketCount (run [Act.connect false, Act.connect false]
      (initWS "ws://localhost:8000/ws")).1 = 2 := by
  decide

/-- C4: `send(type, payload)` while the current socket is not open
(including no socket at all) emits exactly one `error` event
synchronously, writes nothing, queues nothing, and leaves the channel
state unchanged; with an open socket it writes the encoded
`{type, payload}` envelope and emits nothing. -/
theorem c4_send_requires_open (s : WS) (t : String) (p : Json) :
    (isOpenB s = false → send t p s = (s, [Event.error ErrKind.notConnected])) ∧
    (isOpenB s = true →
      send t p s = ({ s with sent := s.sent ++ [jsonStringify (envelopeJson t p)] }, [])) := by
  constructor
  · intro h; simp [send, h]
  · intro h; simp [send, h]

/-- Witness for `c4_send_requires_open`: the spec scenario — sending
`subscribe_pr {prId: 3}` while disconnected writes nothing and yields
exactly one error; after connect and a successful open, a send emits
no error. -/
theorem c4_send_requires_open_witness :
    send "subscribe_pr" (Json.obj (JsonFields.cons "prId" (Json.num 3) JsonFields.nil))
      (initWS "ws://x") = (initWS "ws://x", [Event.error ErrKind.notConnected]) ∧
    (send "subscribe_pr" (Json.obj (JsonFields.cons "prId" (Json.num 3) JsonFields.nil))
      (run [Act.connect false, Act.sockOpen 0] (initWS "ws://x")).1).2 = [] := by
  constructor
  · exact (c4_send_requires_open (initWS "ws://x") _ _).1 (by decide)
  · have h := (c4_send_requires_open (run [Act.connect false, Act.sockOpen 0]
      (initWS "ws://x")).1 "subscribe_pr"
      (Json.obj (JsonFields.cons "prId" (Json.num 3) JsonFields.nil))).2 (by decide)
    rw [h]

/-- The dispatch table exactly as the specification states it
(comparison definition for the refinement claim C5). -/
def specDispatch (t : String) (p : Json) : Event :=
  if t = "pr_update" then Event.prUpdate (some p)
  else if t = "new_suggestion" then Event.newSuggestion (some p)
  else if t = "new_comment" then Event.newComment (some p)
  else if t = "suggestion_status_change" then Event.suggestionStatusChange (some p)
  else Event.message (envelopeJson t p)

/-- Whether an event is the generic `message` event. -/
def isMessageEvent : Event → Bool
  | Event.message _ => true
  | _ => false

/-- Whether a type string is in the fixed lookup table. -/
def inTable (t : String) : Bool :=
  if t = "pr_update" then true
  else if t = "new_suggestion" then true
  else if t = "new_comment" then true
  else if t = "suggestion_status_change" then true
  else false

/-- C5: for every decoded envelope `{type, payload}`, `handleMessage`
emits exactly one event, equal to what the spec's lookup table
prescribes: the four known types map to their semantic events carrying
the payload, and any other type republishes the full envelope under
the generic `message` event (and only in that case is the emission a
`message` event). -/
theorem c5_dispatch_table (t : String) (p : Json) :
    handleMessage (envelopeJson t p) = [specDispatch t p] ∧
    isMessageEvent (specDispatch t p) = !(inTable t) := by
  have hty : typeOf (envelopeJson t p) = some t := by
    simp [typeOf, jsGet, envelopeJson, fieldsGet]
  have hpay : jsGet (envelopeJson t p) "payload" = some p := by
    simp [jsGet, envelopeJson, fieldsGet]
  by_cases h1 : t = "pr_update"
  · subst h1; simp [handleMessage, specDispatch, hty, hpay, isMessageEvent, inTable]
  · by_cases h2 : t = "new_suggestion"
    · subst h2; simp [handleMessage, specDispatch, hty, hpay, isMessageEvent, inTable]
    · by_cases h3 : t = "new_comment"
      · subst h3; simp [handleMessage, specDispatch, hty, hpay, isMessageEvent, inTable]
      · by_cases h4 : t = "suggestion_status_change"
        · subst h4; simp [handleMessage, specDispatch, hty, hpay, isMessageEvent, inTable]
        · simp [handleMessage, specDispatch, hty, hpay, isMessageEvent, inTable,
            h1, h2, h3, h4]

/-- The spec's malformed-frame example `"{not valid}"`. -/
def malformedFrame : String :=
  String.mk ['\x7b', 'n', 'o', 't', ' ', 'v', 'a', 'l', 'i', 'd', '\x7d']

/-- A frame that is valid JSON but not a structurally valid Envelope:
an object with no `type` field. -/
def noTypeFrame : String :=
  jsonStringify (Json.obj (JsonFields.cons "payload" (Json.num 1) JsonFields.nil))

/-- C6 counterexample: the claim says every inbound frame that is not
a structurally valid Envelope yields exactly one error event and no
dispatch.  The code only catches what throws inside the `try` block:
a frame that parses as JSON but has no `type` field — not a valid
Envelope, as `decodeEnvelope` confirms — falls through the `switch`
default and is dispatched under the generic `message` event, with no
error emitted. -/
theorem c6_no_type_frame_dispatched :
    decodeEnvelope noTypeFrame = none ∧
    onMessageText noTypeFrame =
      [Event.message (Json.obj (JsonFields.cons "payload" (Json.num 1) JsonFields.nil))] ∧
    isMessageEvent (Event.message
      (Json.obj (JsonFields.cons "payload" (Json.num 1) JsonFields.nil))) = true := by
  decide

/-- C6 amended: for every inbound text frame whose processing inside
the `try` block throws — the frame is not valid JSON, or parses to
`null` so that reading `.type` throws — exactly one error event is
emitted, the frame is dropped with no dispatch, no exception escapes
the data callback, and the channel state (hence the open socket) is
unchanged.  A frame that parses to a non-null value is dispatched even
when it is not a valid Envelope. -/
theorem c6_bad_frame_one_error (s : WS) (i : Nat) (text : String)
    (h : jsonParse text = none ∨ jsonParse text = some Json.null) :
    stepFn (Act.sockMsg i text) s = (s, [Event.error ErrKind.parseFailure]) := by
  rcases h with h | h <;> simp [stepFn, sockMsgStep, onMessageText, h]

/-- Witness for `c6_bad_frame_one_error`: decoding `"{not valid}"`
fails and its delivery emits exactly one error while leaving the state
unchanged. -/
theorem c6_bad_frame_one_error_witness :
    jsonParse malformedFrame = none ∧
    stepFn (Act.sockMsg 0 malformedFrame) (initWS "ws://x") =
      (initWS "ws://x", [Event.error ErrKind.parseFailure]) := by
  exact ⟨by decide, c6_bad_frame_one_error (initWS "ws://x") 0 malformedFrame
    (Or.inl (by decide))⟩

/-- C7: `connect()` is idempotent on an open channel — it changes
nothing, emits nothing, creates no socket, and a second call in
succession still leaves the original state, so two calls while OPEN
produce exactly one physical socket.  Otherwise (no socket, or a
socket not in the open state) a non-throwing `connect()` creates
exactly one new socket to the configured address, in the connecting
state (the call returns before any handshake completes), with the
service's callbacks installed. -/
theorem c7_connect_idempotent (s : WS) :
    (isOpenB s = true → ∀ f g : Bool,
      connect f s = (s, []) ∧ connect g (connect f s).1 = (s, []) ∧
      (connect g (connect f s).1).1.sockets = s.sockets) ∧
    (isOpenB s = false →
      connect false s = ({ s with ws := some s.sockets.length, sockets := s.sockets ++
        [{ addr := s.url, readyState := ReadyState.connecting,
           listenersInstalled := true }] }, [])) := by
  constructor
  · intro h f g
    have h1 : connect f s = (s, []) := by simp [connect, h]
    have h2 : connect g (connect f s).1 = (s, []) := by rw [h1]; simp [connect, h]
    exact ⟨h1, h2, by rw [h2]⟩
  · intro h
    simp [connect, h]

/-- Witness for `c7_connect_idempotent`: on the concrete open channel
a repeated `connect()` leaves the single socket alone; on the fresh
channel `connect()` creates socket number `0` in the connecting
state. -/
theorem c7_connect_idempotent_witness :
    isOpenB (run [Act.connect false, Act.sockOpen 0] (initWS "ws://x")).1 = true ∧
    connect false (run [Act.connect false, Act.sockOpen 0] (initWS "ws://x")).1 =
      ((run [Act.connect false, Act.sockOpen 0] (initWS "ws://x")).1, []) ∧
    (connect false (connect false (run [Act.connect false, Act.sockOpen 0]
      (initWS "ws://x")).1).1).1.sockets.length = 1 ∧
    isOpenB (initWS "ws://x") = false ∧
    (connect false (initWS "ws://x")).1.sockets =
      [{ addr := "ws://x", readyState := ReadyState.connecting,
         listenersInstalled := true }] := by
  have h := (c7_connect_idempotent (run [Act.connect false, Act.sockOpen 0]
    (initWS "ws://x")).1).1 (by decide) false false
  have h2 := (c7_connect_idempotent (initWS "ws://x")).2 (by decide)
  refine ⟨by decide, h.1, ?_, by decide, ?_⟩
  · rw [h.2.1]; decide
  · rw [h2]; decide

/-- C8: the subscriber registry (modelled from the spec, since the
`EventEmitter` base comes from the external `events` package).  For
every registry content, every handler behavior, and every pair of
behaviors: an emission invokes exactly the handlers registered when it
starts, in registration order (the snapshot, which `on` extends at the
end); the invoked set is entirely independent of the `on`/`off`
mutations the running handlers perform; a handler removed before the
emission starts is never invoked by it; and registries built by
`on`/`off` from the empty registry never hold duplicate
registrations. -/
theorem c8_snapshot_emission (hb hb2 : Nat → List RegOp) (r : List Nat) (h : Nat)
    (ops : List RegOp) :
    (emitReg hb r).2 = r ∧
    (emitReg hb2 r).2 = (emitReg hb r).2 ∧
    (r.Nodup → h ∉ (emitReg hb (offReg h r)).2) ∧
    (h ∉ r → onReg h r = r ++ [h]) ∧
    (applyOps ops []).Nodup := by
  refine ⟨emitReg_invoked hb r, ?_, ?_, ?_, applyOps_nil_nodup ops⟩
  · rw [emitReg_invoked, emitReg_invoked]
  · intro hnd
    rw [emitReg_invoked]
    exact hnd.not_mem_erase
  · intro hm
    simp [onReg, hm]

/-- Witness for `c8_snapshot_emission`: with handlers `[1, 2, 3]`
registered, an emission whose handlers mutate the registry still
invokes exactly `[1, 2, 3]`; after `off 2`, handler `2` is not
invoked; `on 4` appends at the end. -/
theorem c8_snapshot_emission_witness :
    (emitReg (fun _ => [RegOp.remove 3, RegOp.add 9]) [1, 2, 3]).2 = [1, 2, 3] ∧
    2 ∉ (emitReg (fun _ => [RegOp.remove 3, RegOp.add 9]) (offReg 2 [1, 2, 3])).2 ∧
    onReg 4 [1, 2, 3] = [1, 2, 3, 4] := by
  have h1 := c8_snapshot_emission (fun _ => [RegOp.remove 3, RegOp.add 9])
    (fun _ => []) [1, 2, 3] 2 []
  have h2 := c8_snapshot_emission (fun _ => [RegOp.remove 3, RegOp.add 9])
    (fun _ => []) [1, 2, 3] 4 []
  exact ⟨h1.1, h1.2.2.1 (by decide), h2.2.2.2.1 (by decide)⟩

/-- C9: round trip of the Frame Codec — for every Envelope whose
payload is a (serializable) model value, encoding it to a text frame
(`JSON.stringify` of exactly the two fields `type` and `payload`, as
`send` builds it) and decoding the frame back returns the same
Envelope. -/
theorem c9_codec_roundtrip (e : Envelope) : decodeEnvelope (encodeEnvelope e) = some e := by
  obtain ⟨t, p⟩ := e
  have hty : jsGet (envelopeJson t p) "type" = some (Json.str t) := by
    simp [jsGet, envelopeJson, fieldsGet]
  have hpay : jsGet (envelopeJson t p) "payload" = some p := by
    simp [jsGet, envelopeJson, fieldsGet]
  show decodeEnvelope (jsonStringify (envelopeJson t p)) = some ⟨t, p⟩
  simp only [decodeEnvelope, jsonParse_stringify, hty, hpay]

/-- C10: configuring `reconnectAttempts: 0` or `reconnectInterval: 0`
yields the defaults (5 attempts, 3000 ms), because the constructor's
`||` defaulting treats every falsy value as absent; consequently no
choice of options can configure a zero retry budget or a zero retry
delay. -/
theorem c10_zero_options_defaulted (u : String) :
    (∀ i, (mkService u (some 0) i).reconnectAttempts = 5) ∧
    (∀ a, (mkService u a (some 0)).reconnectInterval = 3000) ∧
    (∀ a i, (mkService u a i).reconnectAttempts ≠ 0 ∧
      (mkService u a i).reconnectInterval ≠ 0) := by
  refine ⟨fun i => rfl, fun a => rfl, fun a i => ⟨?_, ?_⟩⟩
  · show jsOr a 5 ≠ 0
    match a with
    | none => decide
    | some v =>
      show (if v = 0 then 5 else v) ≠ 0
      by_cases hv : v = 0
      · simp [hv]
      · simp [hv]
  · show jsOr i 3000 ≠ 0
    match i with
    | none => decide
    | some v =>
      show (if v = 0 then 3000 else v) ≠ 0
      by_cases hv : v = 0
      · simp [hv]
      · simp [hv]
